import Mathlib

/-!
Verification of `patch_cursor_get_machine_id.py` (cursor-auto-free).

This file gives a shallow embedding of the script's core functions —
`get_cursor_paths`, `check_system_requirements`, `version_check` and
`modify_main_js` — and proves/refutes the specification claims about them.

Conventions of the embedding:
* Python strings are Lean `String` / `List Char`.
* Filesystem effects are explicit: existence / writability oracles are
  passed as `String → Bool` functions, and `modify_main_js` acts on an
  explicit record of relevant file contents, with an injected failure step
  standing for a raised exception at that point of the run.
* Python exceptions caught by `except` blocks become `Option`/branching.
-/

namespace PatchCursor

/-! ### The regex substitution of `modify_main_js`

The script applies `re.sub` with the two patterns

  `async getMachineId\(\)\{return [^??]+\?\?([^}]+)\}`
  `async getMacMachineId\(\)\{return [^??]+\?\?([^}]+)\}`

and replacement `async getXXX(){return \1}`.  The character class `[^??]`
is `[^?]` (a duplicated `?`).  Because `[^?]+` cannot match `?` and
`([^}]+)` cannot match `}`, greedy matching with backtracking is
deterministic: each run is the maximal run of allowed characters, and no
shorter run can ever satisfy the following literal.  So the pattern is
equivalent to: literal head, a maximal nonempty run of non-`?`, the
literal `??`, a maximal nonempty run of non-`}` (the capture), and `}`.
`re.sub` scans left to right, replacing non-overlapping matches.
-/

/-- Consume the literal `lit` from the front of `s`; `none` if it is not there. -/
def dropLit : List Char → List Char → Option (List Char)
  | [], s => some s
  | _ :: _, [] => none
  | l :: ls, c :: cs => if c = l then dropLit ls cs else none

/-- Match `[^?]+\?\?([^}]+)\}` at the front of `s`.
Returns the capture group and the rest of the input after the match. -/
def matchBody (s : List Char) : Option (List Char × List Char) :=
  let r1 := s.takeWhile (fun c => c ≠ '?')
  let s2 := s.dropWhile (fun c => c ≠ '?')
  if r1.isEmpty then none else
  match s2 with
  | '?' :: '?' :: s3 =>
    let r2 := s3.takeWhile (fun c => c ≠ '}')
    let s4 := s3.dropWhile (fun c => c ≠ '}')
    if r2.isEmpty then none else
    match s4 with
    | '}' :: s5 => some (r2, s5)
    | _ => none
  | _ => none

/-- Match one whole pattern (literal head `lit`, then the body) at the front of `s`. -/
def matchAt (lit : List Char) (s : List Char) : Option (List Char × List Char) :=
  match dropLit lit s with
  | none => none
  | some s1 => matchBody s1

/-- `re.sub` scan: at each position try the pattern; on a match emit the
replacement (`lit ++ capture ++ "\x7d"`, which is exactly what the template
`async getXXX(){return \1}` produces) and continue after the match,
otherwise emit one character and move on.  `fuel` bounds the recursion;
`fuel = s.length` always suffices because every step consumes at least
one input character. -/
def substF (lit : List Char) : Nat → List Char → List Char
  | 0, s => s
  | _ + 1, [] => []
  | f + 1, c :: rest =>
    match matchAt lit (c :: rest) with
    | some (r2, s5) => lit ++ r2 ++ '}' :: substF lit f s5
    | none => c :: substF lit f rest

/-- One `re.sub(pattern, replacement, s)` pass for the pattern with literal head `lit`. -/
def subst (lit : List Char) (s : List Char) : List Char :=
  substF lit s.length s

/-- Literal head of the first pattern. -/
def lit1 : List Char := "async getMachineId()\x7breturn ".toList

/-- Literal head of the second pattern. -/
def lit2 : List Char := "async getMacMachineId()\x7breturn ".toList

/-- The full transformation the script applies to the file content:
both `re.sub` passes, in dict insertion order. -/
def applyPatterns (s : String) : String :=
  (subst lit2 (subst lit1 s.toList)).asString

/-- Does the pattern with literal head `lit` match anywhere in `s`?
(Models `re.search` semantics: some suffix position matches.) -/
def hasMatch (lit : List Char) : List Char → Bool
  | [] => false
  | c :: rest => (matchAt lit (c :: rest)).isSome || hasMatch lit rest

/-! ### `version_check` -/

/-- Codepoints of the whitespace characters Python `int()` skips around a
numeral (probed exhaustively against CPython: the ASCII whitespace plus
NEL, NBSP and the Unicode space/line/paragraph separators — notably *not*
U+001C..U+001F, which `str.isspace` accepts but `int()` rejects). -/
def pySpaceCodes : List Nat :=
  [9, 10, 11, 12, 13, 32, 133, 160, 5760, 8192, 8193, 8194, 8195, 8196,
   8197, 8198, 8199, 8200, 8201, 8202, 8232, 8233, 8239, 8287, 12288]

/-- Whitespace tolerated by Python `int()`. -/
def pyIsSpace (c : Char) : Bool :=
  pySpaceCodes.any (fun n => c.toNat = n)

/-- Strip leading and trailing `int()` whitespace. -/
def pyStripWs (s : List Char) : List Char :=
  ((s.dropWhile pyIsSpace).reverse.dropWhile pyIsSpace).reverse

/-- The codepoint runs of the Unicode decimal digits (category `Nd`), as
(first, last) pairs, generated from the Unicode data: these are exactly the
characters Python's `\d` matches in a `str` pattern and the digits `int()`
accepts.  Every run is an aligned sequence of whole 0–9 blocks, so a
character's digit value is its offset in its run modulo 10. -/
def ndRanges : List (Nat × Nat) :=
  [(48, 57), (1632, 1641), (1776, 1785), (1984, 1993), (2406, 2415),
   (2534, 2543), (2662, 2671), (2790, 2799), (2918, 2927), (3046, 3055),
   (3174, 3183), (3302, 3311), (3430, 3439), (3558, 3567), (3664, 3673),
   (3792, 3801), (3872, 3881), (4160, 4169), (4240, 4249), (6112, 6121),
   (6160, 6169), (6470, 6479), (6608, 6617), (6784, 6793), (6800, 6809),
   (6992, 7001), (7088, 7097), (7232, 7241), (7248, 7257), (42528, 42537),
   (43216, 43225), (43264, 43273), (43472, 43481), (43504, 43513),
   (43600, 43609), (44016, 44025), (65296, 65305), (66720, 66729),
   (68912, 68921), (69734, 69743), (69872, 69881), (69942, 69951),
   (70096, 70105), (70384, 70393), (70736, 70745), (70864, 70873),
   (71248, 71257), (71360, 71369), (71472, 71481), (71904, 71913),
   (72016, 72025), (72784, 72793), (73040, 73049), (73120, 73129),
   (92768, 92777), (92864, 92873), (93008, 93017), (120782, 120831),
   (123200, 123209), (123632, 123641), (125264, 125273), (130032, 130041)]

/-- Is `c` a Unicode decimal digit (category `Nd`) — Python's `\d`? -/
def pyIsDigitChar (c : Char) : Bool :=
  ndRanges.any (fun r => r.1 ≤ c.toNat && c.toNat ≤ r.2)

/-- Decimal value of a Unicode decimal digit. -/
def pyDigitVal (c : Char) : Nat :=
  match ndRanges.find? (fun r => r.1 ≤ c.toNat && c.toNat ≤ r.2) with
  | some r => (c.toNat - r.1) % 10
  | none => 0

/-- Validity of a Python integer numeral after sign stripping, following the
grammar `digitpart ::= digit (["_"] digit)*`: nonempty, starts and ends
with a decimal digit, contains only digits and underscores, and never two
underscores in a row. -/
def pyDigitsOk (l : List Char) : Bool :=
  (match l.head? with
    | some c => pyIsDigitChar c
    | none => false) &&
  (match l.getLast? with
    | some c => pyIsDigitChar c
    | none => false) &&
  l.all (fun x => pyIsDigitChar x || x = '_') &&
  (l.zip l.tail).all (fun p => !(p.1 = '_' && p.2 = '_'))

/-- Numeric value of a valid numeral: drop the underscores, fold the digit
values. -/
def pyDigitsVal (l : List Char) : Nat :=
  (l.filter (fun x => !(x = '_'))).foldl (fun acc c => 10 * acc + pyDigitVal c) 0

/-- Model of Python `int(s)`: strip surrounding whitespace, optional sign,
then a nonempty run of Unicode decimal digits with optional single
underscore separators between them; `none` models a raised `ValueError`. -/
def pyInt (s : String) : Option Int :=
  match pyStripWs s.toList with
  | '+' :: ds => if pyDigitsOk ds then some (pyDigitsVal ds) else none
  | '-' :: ds => if pyDigitsOk ds then some (-(pyDigitsVal ds : Int)) else none
  | ds => if pyDigitsOk ds then some (pyDigitsVal ds) else none

/-- Model of Python `s.split(".")`: split at every dot, keeping empty parts. -/
def splitDot : List Char → List (List Char)
  | [] => [[]]
  | c :: rest =>
    if c = '.' then [] :: splitDot rest
    else
      match splitDot rest with
      | h :: t => (c :: h) :: t
      | [] => [[c]]

/-- Model of the inner `parse_version`: `tuple(map(int, ver.split(".")))`;
`none` when some component makes `int()` raise. -/
def parse_version (s : String) : Option (List Int) :=
  (splitDot s.toList).mapM (fun part => pyInt part.asString)

/-- Python tuple/list `<`: lexicographic, with a strict proper-prefix smaller. -/
def pyListLt : List Int → List Int → Bool
  | [], [] => false
  | [], _ :: _ => true
  | _ :: _, [] => false
  | x :: xs, y :: ys => if x < y then true else if x = y then pyListLt xs ys else false

/-- Consume a nonempty decimal digit run (`\d+`, Unicode `Nd`) from the
front of `s`. -/
def dropDigits (s : List Char) : Option (List Char) :=
  let d := s.takeWhile pyIsDigitChar
  if d.isEmpty then none else some (s.dropWhile pyIsDigitChar)

/-- Consume a literal `.` (the `\.` of the pattern) from the front of `s`. -/
def expectDot : List Char → Option (List Char)
  | [] => none
  | c :: rest => if c = '.' then some rest else none

/-- Model of `re.match(r"^\d+\.\d+\.\d+$", s)`: note that in Python `$`
also matches just before a single newline at the very end of the string,
so `"1.2.3\n"` matches. `\d` is any Unicode decimal digit (`Nd`). -/
def matchDDD (l : List Char) : Bool :=
  match dropDigits l >>= expectDot with
  | none => false
  | some s2 =>
    match dropDigits s2 >>= expectDot with
    | none => false
    | some s3 =>
      match dropDigits s3 with
      | none => false
      | some tail => tail == [] || tail == ['\n']

/-- Spec-side reading of the format rule, following the specification's words:
the whole string is exactly digits, dot, digits, dot, digits — no extra
characters at all (list-of-characters form; a digit is Python's `\d`, i.e.
any Unicode decimal digit). -/
def strictList (l : List Char) : Bool :=
  match splitDot l with
  | [a, b, c] =>
    !a.isEmpty && a.all pyIsDigitChar && !b.isEmpty && b.all pyIsDigitChar &&
      !c.isEmpty && c.all pyIsDigitChar
  | _ => false

/-- Spec-side reading of the format rule on strings. -/
def strictDDD (s : String) : Bool := strictList s.toList

/-- Lexicographic strict order on version triples (major, minor, patch),
as the specification describes the comparison. -/
def lexLt (a b : Int × Int × Int) : Prop :=
  a.1 < b.1 ∨ (a.1 = b.1 ∧ (a.2.1 < b.2.1 ∨ (a.2.1 = b.2.1 ∧ a.2.2 < b.2.2)))

/-- Lexicographic inclusive order on version triples. -/
def lexLe (a b : Int × Int × Int) : Prop := lexLt a b ∨ a = b

instance (a b : Int × Int × Int) : Decidable (lexLt a b) := by
  unfold lexLt; exact inferInstance

instance (a b : Int × Int × Int) : Decidable (lexLe a b) := by
  unfold lexLe; exact inferInstance

/-- An optional lower bound is satisfied: absent, or at most `v`. -/
def lowerOk : Option (Int × Int × Int) → Int × Int × Int → Prop
  | none, _ => True
  | some a, v => lexLe a v

/-- An optional upper bound is satisfied: absent, or at least `v`. -/
def upperOk : Int × Int × Int → Option (Int × Int × Int) → Prop
  | _, none => True
  | v, some b => lexLe v b

instance (o : Option (Int × Int × Int)) (v : Int × Int × Int) : Decidable (lowerOk o v) :=
  match o with
  | none => isTrue trivial
  | some a => inferInstanceAs (Decidable (lexLe a v))

instance (v : Int × Int × Int) (o : Option (Int × Int × Int)) : Decidable (upperOk v o) :=
  match o with
  | none => isTrue trivial
  | some b => inferInstanceAs (Decidable (lexLe v b))

/-- A version string is well-formed in the claim's sense and denotes the
triple `v`: it passes the source's regex gate and its components parse to
exactly the three integers of `v`. -/
def ParsesTo (s : String) (v : Int × Int × Int) : Prop :=
  matchDDD s.toList = true ∧ parse_version s = some [v.1, v.2.1, v.2.2]

/-- A bound argument of `version_check` denotes the optional triple `o`:
absent bounds are passed as the empty string, present ones as a
well-formed version string. -/
def BoundParsesTo (s : String) (o : Option (Int × Int × Int)) : Prop :=
  match o with
  | none => s = ""
  | some t => s ≠ "" ∧ ParsesTo s t

/-- Helper for the `max_version` branch of `version_check`
(`if max_version and current > parse_version(max_version)`). -/
def checkMaxBound (current : List Int) (max_version : String) : Bool :=
  if max_version = "" then true
  else
    match parse_version max_version with
    | none => false
    | some mx => if pyListLt mx current then false else true

/-- Model of `version_check(version, min_version, max_version)`.  The
`try/except` catching a raised exception (an unparseable nonempty bound)
yields `false`; an empty bound string is falsy and skipped. -/
def version_check (version : String) (min_version : String := "") (max_version : String := "") : Bool :=
  if matchDDD version.toList = false then false
  else
    match parse_version version with
    | none => false
    | some current =>
      if min_version = "" then checkMaxBound current max_version
      else
        match parse_version min_version with
        | none => false
        | some mn =>
          if pyListLt current mn then false else checkMaxBound current max_version

/-! ### `get_cursor_paths` -/

/-- Model of Python `posixpath.join(a, b)`: a second component starting
with `/` restarts the path; otherwise `/` is inserted unless `a` is empty
or already ends in `/`. -/
def posixJoin (a b : String) : String :=
  if b.toList.head? = some '/' then b
  else if a = "" || a.toList.getLast? = some '/' then a ++ b
  else a ++ "/" ++ b

/-- Model of Python `ntpath.join(a, b)` restricted to the shapes this
script builds (no drive letters): a component starting with a separator
restarts the path; otherwise `\` is inserted unless `a` is empty or
already ends in a separator or colon. -/
def ntJoin (a b : String) : String :=
  if b.toList.head? = some '\\' || b.toList.head? = some '/' then b
  else if a = "" then b
  else if a.toList.getLast? = some '\\' || a.toList.getLast? = some '/'
      || a.toList.getLast? = some ':' then a ++ b
  else a ++ "\\" ++ b

/-- The value of `platform.system()`. -/
inductive PySystem where
  | darwin
  | windows
  | linux
  | other (name : String)

/-- The Linux candidate roots, in the order the source lists them. -/
def linuxBases : List String :=
  ["/opt/Cursor/resources/app", "/usr/share/cursor/resources/app"]

/-- The `for base in bases` probe loop of the Linux branch of
`get_cursor_paths`; `ex` is `os.path.exists`. -/
def linuxLoop (ex : String → Bool) : List String → Option (String × String)
  | [] => none
  | base :: rest =>
    let pkg := posixJoin base "package.json"
    if ex pkg then some (pkg, posixJoin base "out/main.js") else linuxLoop ex rest

/-- Model of `get_cursor_paths()`.  `localappdata` is
`os.getenv("LOCALAPPDATA")` (`none` when unset); `ex` is
`os.path.exists`; `Except.error` models the raised `OSError`. -/
def get_cursor_paths (system : PySystem) (localappdata : Option String)
    (ex : String → Bool) : Except String (String × String) :=
  match system with
  | .other name => .error ("不支持的操作系统: " ++ name)
  | .darwin =>
    let base := "/Applications/Cursor.app/Contents/Resources/app"
    .ok (posixJoin base "package.json", posixJoin base "out/main.js")
  | .windows =>
    let base := ntJoin (ntJoin (ntJoin (ntJoin (localappdata.getD "") "Programs") "Cursor")
      "resources") "app"
    .ok (ntJoin base "package.json", ntJoin base "out/main.js")
  | .linux =>
    match linuxLoop ex linuxBases with
    | some pm => .ok pm
    | none => .error "在 Linux 系统上未找到 Cursor 安装路径"

/-! ### `check_system_requirements` -/

/-- The `for file_path in [pkg_path, main_path]` loop of
`check_system_requirements`, instrumented with the list of files actually
examined; `isfile` is `os.path.isfile`, `wok` is `os.access(·, os.W_OK)`.
The Bool component is exactly the source's return value. -/
def checkLoop (isfile wok : String → Bool) : List String → Bool × List String
  | [] => (true, [])
  | p :: rest =>
    if isfile p = false then (false, [p])
    else if wok p = false then (false, [p])
    else
      let r := checkLoop isfile wok rest
      (r.1, p :: r.2)

/-- Model of `check_system_requirements(pkg_path, main_path)` returning
(result, files examined). -/
def check_system_requirements (isfile wok : String → Bool)
    (pkg_path main_path : String) : Bool × List String :=
  checkLoop isfile wok [pkg_path, main_path]

/-- Existence oracle for the short-circuit counterexample: every path is a
regular file except `"pkg"`. -/
def cexIsFile (p : String) : Bool := p ≠ "pkg"

/-- Writability oracle for the short-circuit counterexample: no path is
writable. -/
def cexWok (_ : String) : Bool := false

/-! ### `modify_main_js` -/

/-- The operations of `modify_main_js` at which a raised exception can be
injected, in the order the source performs them. -/
inductive Step where
  | createTmp
  | readMain
  | writeTmp
  | copyBackup
  | moveTmp
deriving DecidableEq

/-- Contents of the three files `modify_main_js` touches, keyed by role:
the script at `main_path`, the backup at `main_path + ".old"`, and the
temporary file; `none` means the file does not exist. -/
structure FS where
  main : Option String
  backup : Option String
  tmp : Option String
deriving DecidableEq, Repr

/-- Model of `modify_main_js(main_path)` as a transition on `FS`, with an
optional injected failure.  Mirrors the source order: create the temporary
file (empty, `delete=False`), read the script, transform in memory, write
the temporary file, bind `tmp_path`, `shutil.copy2` the original to the
backup, `shutil.move` the temporary file over the original.  The `except`
handler unlinks the temporary file only when the local `tmp_path` is
bound, which happens only after the write completed — a failure while
reading or writing therefore leaves the temporary file on disk (modelled
by `tmp` keeping its created, pre-write content `""`).  Failures during
`copy2`/`move` are modelled as leaving their destination unchanged. -/
def modify_main_js (fs : FS) (failAt : Option Step) : FS × Bool :=
  if failAt = some Step.createTmp then (fs, false)
  else
    let fs1 : FS := { fs with tmp := some "" }
    match fs.main with
    | none => (fs1, false)
    | some content =>
      if failAt = some Step.readMain then (fs1, false)
      else if failAt = some Step.writeTmp then (fs1, false)
      else
        let newContent := applyPatterns content
        let fs2 : FS := { fs1 with tmp := some newContent }
        if failAt = some Step.copyBackup then ({ fs2 with tmp := none }, false)
        else
          let fs3 : FS := { fs2 with backup := some content }
          if failAt = some Step.moveTmp then ({ fs3 with tmp := none }, false)
          else ({ fs3 with main := some newContent, tmp := none }, true)

/-! ## Helper lemmas -/

/-- Rebuilding a string from its character list is the identity. -/
theorem asString_toList (s : String) : s.toList.asString = s := rfl

/-- A pattern that matches nowhere makes the `re.sub` scan the identity,
whatever the fuel. -/
theorem substF_of_not_hasMatch (lit : List Char) (f : Nat) (s : List Char)
    (h : hasMatch lit s = false) : substF lit f s = s := by
  induction f generalizing s with
  | zero => rfl
  | succ f ih =>
    cases s with
    | nil => rfl
    | cons c rest =>
      rw [hasMatch, Bool.or_eq_false_iff] at h
      obtain ⟨h1, h2⟩ := h
      cases hm : matchAt lit (c :: rest) with
      | none => rw [substF, hm, ih rest h2]
      | some pr => rw [hm] at h1; simp at h1

/-- Python 3-tuple `<` agrees with the lexicographic strict order on triples. -/
theorem pyListLt_iff_lexLt (a b : Int × Int × Int) :
    pyListLt [a.1, a.2.1, a.2.2] [b.1, b.2.1, b.2.2] = true ↔ lexLt a b := by
  obtain ⟨a1, a2, a3⟩ := a
  obtain ⟨b1, b2, b3⟩ := b
  simp only [pyListLt, lexLt]
  split_ifs <;> simp_all

/-- Failing Python `<` is exactly the inclusive `≥` on triples. -/
theorem pyListLt_eq_false_iff (a b : Int × Int × Int) :
    pyListLt [a.1, a.2.1, a.2.2] [b.1, b.2.1, b.2.2] = false ↔ lexLe b a := by
  rw [← Bool.not_eq_true, pyListLt_iff_lexLt]
  obtain ⟨a1, a2, a3⟩ := a
  obtain ⟨b1, b2, b3⟩ := b
  simp only [lexLt, lexLe, Prod.mk.injEq]
  constructor
  · intro h; omega
  · intro h; omega

/-- Strictness is incompatible with the reverse inclusive order. -/
theorem not_lexLe_of_lexLt (a b : Int × Int × Int) (h : lexLt a b) : ¬ lexLe b a := by
  obtain ⟨a1, a2, a3⟩ := a
  obtain ⟨b1, b2, b3⟩ := b
  simp only [lexLt, lexLe, Prod.mk.injEq] at h ⊢
  omega

/-- The `max_version` branch passes exactly when the upper bound (absent or
parsed) is respected inclusively. -/
theorem checkMaxBound_iff (v : Int × Int × Int) (mx : String)
    (o : Option (Int × Int × Int)) (hmx : BoundParsesTo mx o) :
    (checkMaxBound [v.1, v.2.1, v.2.2] mx = true ↔ upperOk v o) := by
  cases o with
  | none =>
    rw [show mx = "" from hmx]
    simp [checkMaxBound, upperOk]
  | some b =>
    obtain ⟨hne, hm, hp⟩ := hmx
    rw [checkMaxBound, if_neg hne, hp]
    cases hlt : pyListLt [b.1, b.2.1, b.2.2] [v.1, v.2.1, v.2.2] with
    | true =>
      simp only [hlt, if_pos, upperOk]
      constructor
      · intro h; cases h
      · intro h
        exact absurd h (not_lexLe_of_lexLt b v ((pyListLt_iff_lexLt b v).mp hlt))
    | false =>
      have hle : lexLe v b := (pyListLt_eq_false_iff b v).mp hlt
      simp [hlt, upperOk, hle]

/-- `expectDot` succeeds exactly on a leading dot. -/
theorem expectDot_eq_some (r s : List Char) (h : expectDot r = some s) : r = '.' :: s := by
  cases r with
  | nil => cases h
  | cons c cs =>
    rw [expectDot] at h
    by_cases hc : c = '.'
    · rw [if_pos hc] at h
      rw [hc, (Option.some.injEq _ _).mp h]
    · rw [if_neg hc] at h; cases h

/-- Decomposition given by a successful `dropDigits`: a nonempty all-digit
group was consumed. -/
theorem dropDigits_eq_some (l r : List Char) (h : dropDigits l = some r) :
    ∃ d, l = d ++ r ∧ d ≠ [] ∧ d.all pyIsDigitChar = true := by
  simp only [dropDigits] at h
  by_cases he : (l.takeWhile pyIsDigitChar).isEmpty
  · rw [if_pos he] at h; cases h
  · rw [if_neg he] at h
    refine ⟨l.takeWhile pyIsDigitChar, ?_, ?_, List.all_takeWhile⟩
    · rw [← (Option.some.injEq _ _).mp h]
      exact (List.takeWhile_append_dropWhile pyIsDigitChar l).symm
    · intro hnil; rw [hnil] at he; exact he rfl

/-- A decimal digit is not a dot. -/
theorem isDigit_ne_dot (c : Char) (h : pyIsDigitChar c = true) : ¬(c = '.') := by
  intro hc; rw [hc] at h; exact absurd h (by decide)

/-- `splitDot` splits off a leading dot-free group at a dot. -/
theorem splitDot_append_dot (d rest : List Char) (h : ∀ c ∈ d, ¬(c = '.')) :
    splitDot (d ++ '.' :: rest) = d :: splitDot rest := by
  induction d with
  | nil => simp [splitDot]
  | cons c cs ih =>
    have hc : ¬(c = '.') := h c (List.mem_cons_self c cs)
    have ih2 := ih (fun x hx => h x (List.mem_cons_of_mem c hx))
    simp only [List.cons_append, splitDot, if_neg hc, List.append_eq, ih2]

/-- `splitDot` on a dot-free group is that single group. -/
theorem splitDot_no_dot (d : List Char) (h : ∀ c ∈ d, ¬(c = '.')) :
    splitDot d = [d] := by
  induction d with
  | nil => rfl
  | cons c cs ih =>
    have hc : ¬(c = '.') := h c (List.mem_cons_self c cs)
    have ih2 := ih (fun x hx => h x (List.mem_cons_of_mem c hx))
    simp only [splitDot, if_neg hc, ih2]

/-- Three nonempty digit groups joined by dots pass the strict format. -/
theorem strictList_three (d1 d2 d3 : List Char)
    (h1 : d1 ≠ []) (h2 : d2 ≠ []) (h3 : d3 ≠ [])
    (a1 : d1.all pyIsDigitChar = true) (a2 : d2.all pyIsDigitChar = true)
    (a3 : d3.all pyIsDigitChar = true) :
    strictList (d1 ++ '.' :: (d2 ++ '.' :: d3)) = true := by
  have nd1 : ∀ c ∈ d1, ¬(c = '.') :=
    fun c hc => isDigit_ne_dot c (List.all_eq_true.mp a1 c hc)
  have nd2 : ∀ c ∈ d2, ¬(c = '.') :=
    fun c hc => isDigit_ne_dot c (List.all_eq_true.mp a2 c hc)
  have nd3 : ∀ c ∈ d3, ¬(c = '.') :=
    fun c hc => isDigit_ne_dot c (List.all_eq_true.mp a3 c hc)
  rw [strictList, splitDot_append_dot d1 _ nd1, splitDot_append_dot d2 _ nd2,
    splitDot_no_dot d3 nd3]
  simp [List.isEmpty_iff, h1, h2, h3, a1, a2, a3]

/-- The source regex gate accepts exactly the strict digits.digits.digits
format, possibly followed by one trailing newline (Python `$` semantics). -/
theorem matchDDD_strict (l : List Char) (h : matchDDD l = true) :
    strictList l = true ∨ (l.getLast? = some '\n' ∧ strictList l.dropLast = true) := by
  rw [matchDDD] at h
  split at h
  · cases h
  · rename_i s2 h1
    split at h
    · cases h
    · rename_i s3 h2
      split at h
      · cases h
      · rename_i tail h3
        obtain ⟨r1, hr1, he1⟩ : ∃ r, dropDigits l = some r ∧ expectDot r = some s2 := by
          cases hd : dropDigits l with
          | none => rw [hd] at h1; cases h1
          | some r => rw [hd] at h1; exact ⟨r, rfl, h1⟩
        obtain ⟨r2, hr2, he2⟩ : ∃ r, dropDigits s2 = some r ∧ expectDot r = some s3 := by
          cases hd : dropDigits s2 with
          | none => rw [hd] at h2; cases h2
          | some r => rw [hd] at h2; exact ⟨r, rfl, h2⟩
        obtain ⟨d1, hl1, hn1, ha1⟩ := dropDigits_eq_some _ _ hr1
        obtain ⟨d2, hl2, hn2, ha2⟩ := dropDigits_eq_some _ _ hr2
        obtain ⟨d3, hl3, hn3, ha3⟩ := dropDigits_eq_some _ _ h3
        rw [expectDot_eq_some _ _ he1] at hl1
        rw [expectDot_eq_some _ _ he2] at hl2
        simp only [beq_iff_eq, Bool.or_eq_true] at h
        cases h with
        | inl htail =>
          left
          rw [htail, List.append_nil] at hl3
          rw [hl1, hl2, hl3]
          exact strictList_three d1 d2 d3 hn1 hn2 hn3 ha1 ha2 ha3
        | inr htail =>
          right
          have hl : l = (d1 ++ '.' :: (d2 ++ '.' :: d3)) ++ ['\n'] := by
            rw [hl1, hl2, hl3, htail]
            simp [List.append_assoc]
          constructor
          · rw [hl, List.getLast?_concat]
          · rw [hl, List.dropLast_concat]
            exact strictList_three d1 d2 d3 hn1 hn2 hn3 ha1 ha2 ha3

/-! ## Claims -/

/-- C1: whenever `modify_main_js` reports success, the backup holds exactly
the pre-patch content of the script — it was copied from the original before
the original was replaced, so it reflects pre-patch state even when every
rule matched zero times — and the script holds the transformed content. -/
theorem modify_main_js_backup_fidelity (fs : FS) (failAt : Option Step) (c : String)
    (hmain : fs.main = some c) (hsucc : (modify_main_js fs failAt).2 = true) :
    (modify_main_js fs failAt).1.backup = some c ∧
    (modify_main_js fs failAt).1.main = some (applyPatterns c) := by
  rcases failAt with _ | st
  · simp [modify_main_js, hmain]
  · cases st <;> simp [modify_main_js, hmain] at hsucc ⊢

/-- Witness for C1: a concrete successful run. -/
theorem modify_main_js_backup_fidelity_witness :
    (modify_main_js ⟨some "async getMachineId()\x7breturn a??b\x7d", none, none⟩ none).1.backup =
      some "async getMachineId()\x7breturn a??b\x7d" ∧
    (modify_main_js ⟨some "async getMachineId()\x7breturn a??b\x7d", none, none⟩ none).1.main =
      some (applyPatterns "async getMachineId()\x7breturn a??b\x7d") :=
  modify_main_js_backup_fidelity ⟨some "async getMachineId()\x7breturn a??b\x7d", none, none⟩ none
    "async getMachineId()\x7breturn a??b\x7d" rfl rfl

/-- C2 (counterexample): when the failure strikes during the temporary-file
write, the local `tmp_path` was never bound, so the `except` handler does not
unlink the temporary file: the run reports failure and leaves the original
unchanged, but the temporary file stays on disk — refuting the claim that
every failure between temporary-file creation and the move deletes it. -/
theorem modify_main_js_tmp_leak_cex :
    modify_main_js ⟨some "x", none, none⟩ (some Step.writeTmp) =
      (⟨some "x", none, some ""⟩, false) ∧
    (modify_main_js ⟨some "x", none, none⟩ (some Step.writeTmp)).1.tmp ≠ none := by
  exact ⟨rfl, by decide⟩

/-- C2 (amended): every injected failure leaves the original script
byte-for-byte unchanged and reports failure; the temporary file is
additionally deleted when the failure strikes during the backup copy or the
move — but not when it strikes during the read or the temporary-file write. -/
theorem modify_main_js_rollback_amended (fs : FS) (c : String) (st : Step)
    (hmain : fs.main = some c) :
    (modify_main_js fs (some st)).1.main = some c ∧
    (modify_main_js fs (some st)).2 = false ∧
    ((st = Step.copyBackup ∨ st = Step.moveTmp) →
      (modify_main_js fs (some st)).1.tmp = none) := by
  cases st <;> simp [modify_main_js, hmain]

/-- Witness for C2 (amended): a concrete failing backup-copy step. -/
theorem modify_main_js_rollback_amended_witness :
    (modify_main_js ⟨some "x", none, none⟩ (some Step.copyBackup)).1.main = some "x" ∧
    (modify_main_js ⟨some "x", none, none⟩ (some Step.copyBackup)).2 = false ∧
    ((Step.copyBackup = Step.copyBackup ∨ Step.copyBackup = Step.moveTmp) →
      (modify_main_js ⟨some "x", none, none⟩ (some Step.copyBackup)).1.tmp = none) :=
  modify_main_js_rollback_amended ⟨some "x", none, none⟩ "x" Step.copyBackup rfl

/-- C3 (counterexample): the rule set is not idempotent.  On
`async getMachineId(){return a ?? b??c}` the capture `([^}]+)` swallows
` b??c`, so the first pass yields `async getMachineId(){return  b??c}`,
which still matches the rule; a second pass rewrites it again to
`async getMachineId(){return c}`. -/
theorem applyPatterns_not_idempotent_cex :
    applyPatterns (applyPatterns "async getMachineId()\x7breturn a ?? b??c\x7d") ≠
      applyPatterns "async getMachineId()\x7breturn a ?? b??c\x7d" := by
  decide

/-- C3 (amended): applying the rule set twice yields the content of the
first application, provided the once-transformed text no longer contains a
match of either rule; unconditionally the property fails, because a
captured fallback expression may itself contain `??` and then the
replacement output matches the rule again. -/
theorem applyPatterns_idempotent_amended (s : String)
    (h1 : hasMatch lit1 (applyPatterns s).toList = false)
    (h2 : hasMatch lit2 (applyPatterns s).toList = false) :
    applyPatterns (applyPatterns s) = applyPatterns s := by
  conv_lhs => rw [applyPatterns, subst, subst]
  rw [substF_of_not_hasMatch lit1 _ _ h1]
  rw [substF_of_not_hasMatch lit2 _ _ h2]
  exact asString_toList (applyPatterns s)

/-- Witness for C3 (amended): a concrete input whose transformed text has no
remaining match. -/
theorem applyPatterns_idempotent_amended_witness :
    applyPatterns (applyPatterns "async getMachineId()\x7breturn a ?? b\x7d") =
      applyPatterns "async getMachineId()\x7breturn a ?? b\x7d" :=
  applyPatterns_idempotent_amended "async getMachineId()\x7breturn a ?? b\x7d"
    (by decide) (by decide)

/-- C4 (counterexample): on the spec's scenario input the transformer yields
`async getMachineId(){return  b}` — the capture `([^}]+)` keeps the space in
front of `b`, so the output has two spaces after `return`, not the single
space the claim states. -/
theorem applyPatterns_scenario_cex :
    applyPatterns "async getMachineId()\x7breturn a ?? b\x7d" =
      "async getMachineId()\x7breturn  b\x7d" ∧
    "async getMachineId()\x7breturn  b\x7d" ≠ "async getMachineId()\x7breturn b\x7d" := by
  exact ⟨rfl, by decide⟩

/-- C4 (amended): the scenario input rewrites to
`async getMachineId(){return  b}` (the capture keeps its leading space); the
spaceless variant rewrites to exactly the claimed shape; and a text with no
match is returned unchanged, not an error. -/
theorem applyPatterns_scenario_amended :
    applyPatterns "async getMachineId()\x7breturn a ?? b\x7d" =
      "async getMachineId()\x7breturn  b\x7d" ∧
    applyPatterns "async getMachineId()\x7breturn a??b\x7d" =
      "async getMachineId()\x7breturn b\x7d" ∧
    applyPatterns "function foo()\x7breturn 1\x7d" = "function foo()\x7breturn 1\x7d" :=
  ⟨rfl, rfl, rfl⟩

/-- C5 (counterexample): with the descriptor missing and the script file not
writable, the checker examines only the descriptor and stops — the script,
whose permission check would fail, is never examined, so the permission
problem is hidden behind the other file's existence failure. -/
theorem check_system_requirements_short_circuit_cex :
    check_system_requirements cexIsFile cexWok "pkg" "main" = (false, ["pkg"]) ∧
    "main" ∉ (check_system_requirements cexIsFile cexWok "pkg" "main").2 ∧
    cexWok "main" = false := by
  refine ⟨by decide, by decide, rfl⟩

/-- C5 (amended): `check_system_requirements` examines the two files in order
and returns at the first failing check, so both files are examined exactly
when the first passes existence and writability; the boolean result is the
conjunction of all four checks. -/
theorem check_system_requirements_amended (isfile wok : String → Bool)
    (pkg main : String) :
    (check_system_requirements isfile wok pkg main).1 =
      (isfile pkg && wok pkg && isfile main && wok main) ∧
    (check_system_requirements isfile wok pkg main).2 =
      (if isfile pkg && wok pkg then [pkg, main] else [pkg]) := by
  by_cases h1 : isfile pkg <;> by_cases h2 : wok pkg <;>
    by_cases h3 : isfile main <;> by_cases h4 : wok main <;>
      simp [check_system_requirements, checkLoop, h1, h2, h3, h4]

/-- C6: for well-formed versions compared lexicographically on
(major, minor, patch), `version_check` passes exactly when the version lies
inclusively between the bounds, each bound applied only when present — so
it fails when the version is below the lower or above the upper bound, and
both boundary equalities pass. -/
theorem version_check_range (s mn mx : String) (v : Int × Int × Int)
    (ovn ovx : Option (Int × Int × Int))
    (hs : ParsesTo s v) (hmn : BoundParsesTo mn ovn) (hmx : BoundParsesTo mx ovx) :
    (version_check s mn mx = true ↔ (lowerOk ovn v ∧ upperOk v ovx)) := by
  obtain ⟨hsm, hsp⟩ := hs
  rw [version_check, hsm, hsp]
  simp only [Bool.true_eq_false, if_false]
  cases ovn with
  | none =>
    rw [show mn = "" from hmn]
    simp only [if_pos, lowerOk, true_and]
    exact checkMaxBound_iff v mx ovx hmx
  | some a =>
    obtain ⟨hne, ham, hap⟩ := hmn
    rw [if_neg hne, hap]
    cases hlt : pyListLt [v.1, v.2.1, v.2.2] [a.1, a.2.1, a.2.2] with
    | true =>
      simp only [hlt, if_pos, lowerOk]
      constructor
      · intro h; cases h
      · intro h
        exact absurd h.1 (not_lexLe_of_lexLt v a ((pyListLt_iff_lexLt v a).mp hlt))
    | false =>
      have hle : lexLe a v := (pyListLt_eq_false_iff v a).mp hlt
      simp only [hlt, Bool.false_eq_true, if_false, lowerOk, hle, true_and]
      exact checkMaxBound_iff v mx ovx hmx

/-- Witness for C6: the lower boundary case passes. -/
theorem version_check_range_witness :
    version_check "1.2.3" "1.2.3" "2.0.0" = true :=
  (version_check_range "1.2.3" "1.2.3" "2.0.0" (1, 2, 3) (some (1, 2, 3)) (some (2, 0, 0))
    ⟨rfl, rfl⟩ ⟨by decide, rfl, rfl⟩ ⟨by decide, rfl, rfl⟩).mpr (by decide)

/-- C7 (counterexample): the string `"1.2.3\n"` carries a trailing newline,
so it is not of the exact digits.digits.digits form — yet `version_check`
accepts it, because Python's `$` anchor matches before a single trailing
newline and `int()` strips whitespace.  The claim that every string not of
the exact form fails is therefore false. -/
theorem version_check_trailing_newline_cex :
    strictDDD "1.2.3\n" = false ∧ version_check "1.2.3\n" = true :=
  ⟨rfl, rfl⟩

/-- C7 (amended): `version_check` rejects every version string that is not of
the exact form digits.digits.digits — a digit being any Unicode decimal
digit, as Python's `\d` matches — except for strings that become of that
exact form after removing one trailing newline, which Python's `$` anchor
also lets through (and `int()` then tolerates the newline). -/
theorem version_check_format_amended (s mn mx : String)
    (h1 : strictDDD s = false)
    (h2 : s.toList.getLast? = some '\n' → strictList s.toList.dropLast = false) :
    version_check s mn mx = false := by
  rw [version_check]
  cases hm : matchDDD s.toList with
  | false => simp
  | true =>
    rcases matchDDD_strict s.toList hm with hstrict | ⟨hnl, hstrict⟩
    · rw [strictDDD] at h1; rw [h1] at hstrict; cases hstrict
    · rw [h2 hnl] at hstrict; cases hstrict

/-- Witness for C7 (amended): a version with a stray suffix is rejected. -/
theorem version_check_format_amended_witness :
    version_check "1.2.3a" "0.45.0" "" = false :=
  version_check_format_amended "1.2.3a" "0.45.0" "" (by decide) (by decide)

/-- C10 (counterexample): the bound `"1.2"` is nonempty and not of the
digits.digits.digits form, yet `version_check "1.2.3" "1.2" ""` returns
`True`: `parse_version` happily builds the 2-tuple `(1, 2)` and Python's
tuple comparison accepts `(1, 2) < (1, 2, 3)`.  The claim that such a bound
forces `False` is refuted. -/
theorem version_check_short_bound_cex :
    version_check "1.2.3" "1.2" "" = true ∧ strictDDD "1.2" = false ∧ "1.2" ≠ "" :=
  ⟨rfl, rfl, by decide⟩

/-- C10 (amended): `version_check` is total — every Python exception is
caught and turned into `False`.  A nonempty bound with a component that
`int()` cannot parse (where `int()` accepts Unicode decimal digits and
single underscore separators between digits) makes the check return `False`
whatever the version and whatever the other bound; but a bound that is a
dotted integer tuple of a different arity (such as `"1.2"`) parses fine and
is compared lexicographically, so it does not force failure. -/
theorem version_check_bounds_amended (v mn mx : String) :
    (mn ≠ "" → parse_version mn = none → version_check v mn mx = false) ∧
    (mx ≠ "" → parse_version mx = none → version_check v mn mx = false) ∧
    version_check "1.2.3" "1.2" "" = true := by
  refine ⟨?_, ?_, rfl⟩
  · intro hne hparse
    rw [version_check]
    cases hm : matchDDD v.toList with
    | false => simp
    | true =>
      simp only [Bool.true_eq_false, if_false]
      cases hv : parse_version v with
      | none => simp
      | some cur => simp [if_neg hne, hparse]
  · intro hne hparse
    rw [version_check]
    cases hm : matchDDD v.toList with
    | false => simp
    | true =>
      simp only [Bool.true_eq_false, if_false]
      cases hv : parse_version v with
      | none => simp
      | some cur =>
        by_cases hmn : mn = ""
        · simp [hmn, checkMaxBound, if_neg hne, hparse]
        · cases hpmn : parse_version mn with
          | none => simp [if_neg hmn, hpmn]
          | some mnl =>
            cases hlt : pyListLt cur mnl with
            | true => simp [if_neg hmn, hpmn, hlt]
            | false => simp [if_neg hmn, hpmn, hlt, checkMaxBound, if_neg hne, hparse]

/-- Witness for C10 (amended): an unparseable nonempty lower bound fails. -/
theorem version_check_bounds_amended_witness :
    version_check "1.2.3" "zzz" "" = false :=
  (version_check_bounds_amended "1.2.3" "zzz" "").1 (by decide) (by decide)

/-- C8: on Linux, `get_cursor_paths` probes the candidate roots in their
fixed priority order, testing only whether the descriptor exists under each
root, returns the paths derived from the first root whose descriptor exists,
and raises `OSError` when no candidate has one. -/
theorem get_cursor_paths_linux_priority (lad : Option String) (ex : String → Bool) :
    get_cursor_paths PySystem.linux lad ex =
      (match linuxBases.find? (fun b => ex (posixJoin b "package.json")) with
        | some b => Except.ok (posixJoin b "package.json", posixJoin b "out/main.js")
        | none => Except.error "在 Linux 系统上未找到 Cursor 安装路径") := by
  by_cases h1 : ex (posixJoin "/opt/Cursor/resources/app" "package.json") <;>
    by_cases h2 : ex (posixJoin "/usr/share/cursor/resources/app" "package.json") <;>
      simp [get_cursor_paths, linuxBases, linuxLoop, List.find?, h1, h2]

/-- C9: on Windows, an unset `LOCALAPPDATA` behaves exactly like the empty
string — `get_cursor_paths` returns paths built from an empty-string root
without raising, and (as the two unrelated existence oracles show) performs
no existence check at resolution time. -/
theorem get_cursor_paths_windows_env (ex ex2 : String → Bool) :
    get_cursor_paths PySystem.windows none ex =
      get_cursor_paths PySystem.windows (some "") ex2 ∧
    get_cursor_paths PySystem.windows none ex =
      Except.ok ("Programs\\Cursor\\resources\\app\\package.json",
        "Programs\\Cursor\\resources\\app\\out/main.js") := by
  refine ⟨rfl, ?_⟩
  show get_cursor_paths PySystem.windows (some "") (fun _ => false) =
    Except.ok ("Programs\\Cursor\\resources\\app\\package.json",
      "Programs\\Cursor\\resources\\app\\out/main.js")
  rfl

end PatchCursor
